import Mathlib

/-!
Verification of the `JournalTool` / `JournalScanner` / `JournalFilter`
interface declared in `src/mds/JournalTool.h`.

The repository provides only the header (declarations, constructors with
member initializer lists, and data-member layout).  The bodies of
`scan`, `scan_header`, `scan_events`, `gap_advance`, `is_readable`,
`is_healthy`, `JournalFilter::apply`, `JournalFilter::get_range` and
`JournalTool::replay_offline` are not part of the sources; whenever a
definition below embeds one of those, its doc comment starts with
`Modelled from the spec:` and names the missing function.  Constructor
initializer lists and data members are embedded directly from the header.

Machine integers (`uint64_t`, `uint32_t`) are embedded as `Nat` with an
explicit conversion from signed literals where overflow matters
(`u64ofInt` below).  The injected storage backend is a pure map from
object index to an optional byte payload; the external payload decoder
is a parameter `dec : List Nat → Option LogEvent`.
-/

set_option maxRecDepth 4000

/-- Two's-complement conversion of a signed integer literal to an
unsigned 64-bit value, as C++ performs for `range_end(-1)` on a
`uint64_t` member. -/
def u64ofInt (z : Int) : Nat := (z % ((2 : Int) ^ 64)).toNat

/-- The largest `uint64_t` value, `2^64 - 1`. -/
def U64MAX : Nat := 2 ^ 64 - 1

/-- The decoded metadata blob an event may carry (external decoder's
output shape; only the fields the filter inspects are modelled). -/
structure EMetaBlob where
  inodes : List Nat
  paths : List (List Char)
  frags : List Nat
  dentries : List (Nat × List Char)
  client : Nat
deriving Repr, DecidableEq

/-- A decoded journal event: its declared type tag and an optional
metadata blob (events without metadata carry `none`). -/
structure LogEvent where
  event_type : Nat
  metablob : Option EMetaBlob
deriving Repr, DecidableEq

/-- The journal header record: write/expire/trimmed pointers and the
per-object byte capacity (stream-to-object stride). -/
structure Header where
  trimmed_pos : Nat
  expire_pos : Nat
  write_pos : Nat
  object_size : Nat
deriving Repr, DecidableEq

/-- `JournalFilter` data members, from `src/mds/JournalTool.h` lines
29-48: offset range, path expression, inode, event type, dirfrag (with
optional dentry name) and client name.  Strings are embedded as
character lists; `dirfrag_t` and `entity_name_t` are embedded by the
numeric component the filter compares (0 meaning unset, as for
`inode`). -/
structure JournalFilter where
  range_start : Nat
  range_end : Nat
  path_expr : List Char
  inode : Nat
  event_type : Nat
  frag : Nat
  frag_dentry : List Char
  client_name : Nat
deriving Repr, DecidableEq

/-- The `JournalFilter` default constructor, from `src/mds/JournalTool.h`
lines 51-55: `range_start(0), range_end(-1), inode(0), event_type(0)`;
the remaining members are default-constructed (empty string / zero
identifier). -/
def JournalFilter.init : JournalFilter :=
  { range_start := 0
    range_end := u64ofInt (-1)
    path_expr := []
    inode := 0
    event_type := 0
    frag := 0
    frag_dentry := []
    client_name := 0 }

/-- Whether the offset-range constraint is set: the default-constructed
window `(0, 2^64-1)` counts as "no range configured". -/
def JournalFilter.range_set (f : JournalFilter) : Bool :=
  !(f.range_start == 0 && f.range_end == U64MAX)

/-- Modelled from the spec: `JournalFilter::get_range` (body not in
src) — "returns the configured offset window if set". -/
def JournalFilter.get_range (f : JournalFilter) : Option (Nat × Nat) :=
  if f.range_set then some (f.range_start, f.range_end) else none

/-- Substring test on character lists (the spec's "substring/pattern
match against a reconstructed file path"). -/
def listSub (needle : List Char) : List Char → Bool
  | [] => needle == []
  | c :: rest => needle.isPrefixOf (c :: rest) || listSub needle rest

/-- Range constraint: passes when the range is unset, otherwise the
offset must lie in the half-open window. -/
def JournalFilter.rangeCheck (f : JournalFilter) (pos : Nat) : Bool :=
  !f.range_set || (decide (f.range_start ≤ pos) && decide (pos < f.range_end))

/-- Type constraint: 0 is the wildcard. -/
def JournalFilter.typeCheck (f : JournalFilter) (le : LogEvent) : Bool :=
  f.event_type == 0 || f.event_type == le.event_type

/-- Path constraint: inspects the payload, so an event without a
metadata blob cannot match a set path expression. -/
def JournalFilter.pathCheck (f : JournalFilter) (le : LogEvent) : Bool :=
  f.path_expr == [] ||
    match le.metablob with
    | none => false
    | some mb => mb.paths.any (fun p => listSub f.path_expr p)

/-- Inode constraint: 0 is the wildcard; needs the metadata blob. -/
def JournalFilter.inodeCheck (f : JournalFilter) (le : LogEvent) : Bool :=
  f.inode == 0 ||
    match le.metablob with
    | none => false
    | some mb => mb.inodes.contains f.inode

/-- Dirfrag constraint, with the optional dentry name nested inside it;
needs the metadata blob. -/
def JournalFilter.fragCheck (f : JournalFilter) (le : LogEvent) : Bool :=
  f.frag == 0 ||
    match le.metablob with
    | none => false
    | some mb =>
      mb.frags.contains f.frag &&
        (f.frag_dentry == [] || mb.dentries.contains (f.frag, f.frag_dentry))

/-- Client-name constraint: 0 is the wildcard; needs the metadata
blob. -/
def JournalFilter.clientCheck (f : JournalFilter) (le : LogEvent) : Bool :=
  f.client_name == 0 ||
    match le.metablob with
    | none => false
    | some mb => mb.client == f.client_name

/-- Modelled from the spec: `JournalFilter::apply` (body not in src) —
"Matching requires combining *all* set constraints (logical AND); a
constraint that requires inspecting the decoded event payload (path,
inode, frag, dentry, client) short-circuits to no match if the event
carries no metadata blob." -/
def JournalFilter.apply (f : JournalFilter) (pos : Nat) (le : LogEvent) : Bool :=
  f.rangeCheck pos && f.typeCheck le && f.pathCheck le &&
    f.inodeCheck le && f.fragCheck le && f.clientCheck le

/-- `JournalScanner::EventRecord`, from `src/mds/JournalTool.h` lines
155-161: a decoded event together with its raw framed size. -/
structure EventRecord where
  log_event : LogEvent
  raw_size : Nat
deriving Repr, DecidableEq

/-- The scan report built by a `JournalScanner`, from the public data
members in `src/mds/JournalTool.h` lines 164-174.  `frames` is ghost
instrumentation recording the byte span of every successfully decoded
frame (the scanner knows each frame's span; the C++ report keeps only
the start offsets in `events_valid`). -/
structure ScanState where
  header_present : Bool
  header_valid : Bool
  header : Option Header
  objects_valid : List Nat
  objects_missing : List Nat
  ranges_invalid : List (Nat × Nat)
  events_valid : List Nat
  events : List (Nat × EventRecord)
  frames : List (Nat × Nat)
deriving Repr, DecidableEq

/-- The `JournalScanner` constructor state, from `src/mds/JournalTool.h`
lines 128-146: `header_present(false), header_valid(false),
header(NULL)`, with all result containers default-constructed
(empty). -/
def JournalScanner.initState : ScanState :=
  { header_present := false
    header_valid := false
    header := none
    objects_valid := []
    objects_missing := []
    ranges_invalid := []
    events_valid := []
    events := []
    frames := [] }

/-- Modelled from the spec: `JournalScanner::is_readable` (body not in
src) — "holds iff `header_valid` and `ranges_invalid` is empty for the
scanned span". -/
def JournalScanner.is_readable (st : ScanState) : Bool :=
  st.header_valid && st.ranges_invalid.isEmpty

/-- Modelled from the spec: `JournalScanner::is_healthy` (body not in
src) — "strictly stronger: additionally requires `objects_missing` is
empty". -/
def JournalScanner.is_healthy (st : ScanState) : Bool :=
  JournalScanner.is_readable st && st.objects_missing.isEmpty

/-- Read a little-endian 32-bit value from a byte list at `off`;
`none` when fewer than four bytes remain. -/
def readU32LE (data : List Nat) (off : Nat) : Option Nat :=
  match data.get? off, data.get? (off + 1), data.get? (off + 2), data.get? (off + 3) with
  | some b0, some b1, some b2, some b3 =>
    some (b0 % 256 + 256 * (b1 % 256) + 65536 * (b2 % 256) + 16777216 * (b3 % 256))
  | _, _, _, _ => none

/-- Modelled from the spec: the frame-decode step of
`JournalScanner::scan_events` (body not in src) — an event is framed as
`[leading length | payload | trailing length]`; decoding requires the
leading length to keep the frame inside the current object and the scan
window, the trailing length (read at `offset + 4 + leading_length`) to
equal the leading length, and the payload to decode.  On success the
result is the event and the raw framed size `4 + length + 4`. -/
def tryDecodeFrame (dec : List Nat → Option LogEvent) (S endO : Nat)
    (data : List Nat) (obj pos : Nat) : Option (LogEvent × Nat) :=
  let innerOff := pos - obj * S
  match readU32LE data innerOff with
  | none => none
  | some L =>
    if pos + 8 + L ≤ (obj + 1) * S ∧ pos + 8 + L ≤ endO then
      match readU32LE data (innerOff + 4 + L) with
      | none => none
      | some T =>
        if T = L then
          match dec ((data.drop (innerOff + 4)).take L) with
          | none => none
          | some ev => some (ev, 8 + L)
        else none
    else none

/-- Append an object index to `objects_valid` unless already recorded
(the C++ outer loop fetches and records each object once). -/
def pushUnique (l : List Nat) (o : Nat) : List Nat :=
  if l.contains o then l else l ++ [o]

/-- Modelled from the spec: the main loop of
`JournalScanner::scan_events` with its private helper
`JournalScanner::gap_advance` (bodies not in src).  The journal is one
logical byte stream cut into objects of stride `S`; the cursor walks
from the effective start toward `endO`.  An absent object records its
index in `objects_missing` and its whole span (clipped to the window)
as one `ranges_invalid` entry, then jumps to the next object boundary
(gap advance).  A present object is recorded in `objects_valid`; a
frame that decodes is recorded in `events_valid` (and in `events` iff
the filter matches), and the cursor moves past it; a frame that fails
to decode records the span up to the next object boundary (clipped) as
invalid and resumes at that boundary (object-boundary resync).  `fuel`
is a termination bound; the cursor strictly advances each step. -/
def scanLoop (dec : List Nat → Option LogEvent) (flt : JournalFilter)
    (backend : Nat → Option (List Nat)) (S endO : Nat) :
    Nat → Nat → ScanState → ScanState
  | 0, _, st => st
  | fuel + 1, pos, st =>
    if endO ≤ pos then st
    else
      let obj := pos / S
      let B := (obj + 1) * S
      match backend obj with
      | none =>
        scanLoop dec flt backend S endO fuel B
          { st with
            objects_missing := st.objects_missing ++ [obj]
            ranges_invalid := st.ranges_invalid ++ [(pos, min B endO)] }
      | some data =>
        let st1 := { st with objects_valid := pushUnique st.objects_valid obj }
        match tryDecodeFrame dec S endO data obj pos with
        | some (ev, sz) =>
          scanLoop dec flt backend S endO fuel (pos + sz)
            { st1 with
              events_valid := st1.events_valid ++ [pos]
              frames := st1.frames ++ [(pos, pos + sz)]
              events := st1.events ++ (if flt.apply pos ev then [(pos, ⟨ev, sz⟩)] else []) }
        | none =>
          scanLoop dec flt backend S endO fuel B
            { st1 with ranges_invalid := st1.ranges_invalid ++ [(pos, min B endO)] }

/-- Modelled from the spec: `JournalScanner::scan_events` (body not in
src) — run the scan loop over the window `[start, endO)` with enough
fuel to reach the end. -/
def scan_events (dec : List Nat → Option LogEvent) (flt : JournalFilter)
    (backend : Nat → Option (List Nat)) (S start endO : Nat)
    (st : ScanState) : ScanState :=
  scanLoop dec flt backend S endO (endO + 1) start st

/-- What reading the header object can yield: absent, present but
undecodable, or a good header. -/
inductive HeaderFetch where
  | absent : HeaderFetch
  | corrupt : HeaderFetch
  | good : Header → HeaderFetch
deriving Repr, DecidableEq

/-- The injected storage backend: the well-known header object plus a
map from object index to optional byte payload (`none` = absent). -/
structure Backend where
  hdr : HeaderFetch
  objs : Nat → Option (List Nat)

/-- Modelled from the spec: `JournalScanner::scan_header` (body not in
src) — absent header object sets `header_present=false`; present but
undecodable sets `header_valid=false`; otherwise both flags are set and
the header is retained. -/
def scan_header (b : Backend) (st : ScanState) : ScanState :=
  match b.hdr with
  | .absent => { st with header_present := false, header_valid := false, header := none }
  | .corrupt => { st with header_present := true, header_valid := false, header := none }
  | .good h => { st with header_present := true, header_valid := true, header := some h }

/-- Modelled from the spec: `JournalScanner::scan` (body not in src) —
orchestrates `scan_header` then, when `full` and a valid header is
available, `scan_events` over the window given by the range filter or
the header's trimmed/write pointers, starting from the fresh
constructor state. -/
def JournalScanner.scan (dec : List Nat → Option LogEvent)
    (flt : JournalFilter) (b : Backend) (full : Bool) : ScanState :=
  let st := scan_header b JournalScanner.initState
  if full then
    match st.header with
    | some h =>
      let start := if flt.range_set then flt.range_start else h.trimmed_pos
      let endO := if flt.range_set then flt.range_end else h.write_pos
      scan_events dec flt b.objs h.object_size start endO st
    | none => st
  else st

/-- Modelled from the spec: `JournalTool::replay_offline` (body not in
src) — walk the retained events in order; for each, invoke the external
apply capability unless `dry_run` is set; record a per-event outcome and
never abort on a failed apply.  Returns the per-event outcomes and the
list of offsets for which the apply capability was actually invoked. -/
def replay_offline (applyCap : Nat → LogEvent → Bool) (dry_run : Bool) :
    List (Nat × EventRecord) → List (Nat × Bool) × List Nat
  | [] => ([], [])
  | e :: rest =>
    let (res, calls) := replay_offline applyCap dry_run rest
    if dry_run then ((e.1, true) :: res, calls)
    else ((e.1, applyCap e.1 e.2.log_event) :: res, e.1 :: calls)

/-- A byte offset lies inside one of the half-open spans of a list. -/
def inSpans (l : List (Nat × Nat)) (x : Nat) : Prop :=
  ∃ r ∈ l, r.1 ≤ x ∧ x < r.2

instance (l : List (Nat × Nat)) (x : Nat) : Decidable (inSpans l x) := by
  unfold inSpans; infer_instance

/-- Two half-open spans do not overlap. -/
def spansDisjoint (a b : Nat × Nat) : Prop := a.2 ≤ b.1 ∨ b.2 ≤ a.1

instance (a b : Nat × Nat) : Decidable (spansDisjoint a b) := by
  unfold spansDisjoint; infer_instance

/-- The combined family of byte spans a report describes: the spans of
the missing objects, the invalid ranges, and the decoded frame spans. -/
def familySpans (S : Nat) (st : ScanState) : List (Nat × Nat) :=
  st.objects_missing.map (fun o => (o * S, (o + 1) * S)) ++ st.ranges_invalid ++ st.frames

/-- The cursor positions the scan loop can be at: the scan's start, an
object boundary, or a position inside an object known to be present. -/
def PosAlign (backend : Nat → Option (List Nat)) (S start pos : Nat) : Prop :=
  pos = start ∨ pos % S = 0 ∨ (backend (pos / S)).isSome = true

/-- The loop invariant of `scanLoop`: with `m` the byte reached so far
(`min pos endO`), the invalid ranges and decoded frame spans partition
`[start, m)` exactly; both lists are sorted and non-overlapping;
`events_valid` lists the frame starts; the `events` map holds only
filter-matching events whose offsets are in `events_valid`; and every
missing object contributed its window-clipped span as a
`ranges_invalid` entry. -/
structure ScanInv (flt : JournalFilter) (S start endO m : Nat) (st : ScanState) : Prop where
  cover : ∀ x, (start ≤ x ∧ x < m) ↔ (inSpans st.ranges_invalid x ∨ inSpans st.frames x)
  disj : ∀ x, ¬ (inSpans st.ranges_invalid x ∧ inSpans st.frames x)
  r_lo : ∀ r ∈ st.ranges_invalid, start ≤ r.1
  r_ne : ∀ r ∈ st.ranges_invalid, r.1 < r.2
  r_hi : ∀ r ∈ st.ranges_invalid, r.2 ≤ m
  r_sorted : List.Pairwise (fun a b : Nat × Nat => a.2 ≤ b.1) st.ranges_invalid
  f_lo : ∀ f ∈ st.frames, start ≤ f.1
  f_ne : ∀ f ∈ st.frames, f.1 < f.2
  f_hi : ∀ f ∈ st.frames, f.2 ≤ m
  f_sorted : List.Pairwise (fun a b : Nat × Nat => a.2 ≤ b.1) st.frames
  ev_frames : st.events_valid = st.frames.map Prod.fst
  ev_sub : ∀ e ∈ st.events, e.1 ∈ st.events_valid
  ev_filtered : ∀ e ∈ st.events, flt.apply e.1 e.2.log_event = true
  missing_mem : ∀ o ∈ st.objects_missing,
    (max (o * S) start, min ((o + 1) * S) endO) ∈ st.ranges_invalid


/-! ### Concrete journals used by the scenario claims

A simple external decoder, concrete object payloads and backends for
the spec's worked scenarios (stride 1000 throughout). -/

/-- A decoder accepting any non-empty payload as an event of type 1
with no metadata blob. -/
def dec0 : List Nat → Option LogEvent :=
  fun p => if p.isEmpty then none else some ⟨1, none⟩

/-- Object 0 of the missing-object scenario: a frame `[100, 250)`
(length 142) and a frame `[250, 1000)` (length 742), both well
formed. -/
def obj0C2 : List Nat :=
  List.replicate 100 0 ++ [142, 0, 0, 0] ++ List.replicate 142 0 ++ [142, 0, 0, 0] ++
    [230, 2, 0, 0] ++ List.replicate 742 0 ++ [230, 2, 0, 0]

/-- Backend with object 0 present and object 1 (and all others)
absent. -/
def backC2 : Nat → Option (List Nat) :=
  fun i => if i = 0 then some obj0C2 else none

/-- The same backend written differently (pointwise equal to
`backC2`). -/
def backC2b : Nat → Option (List Nat) :=
  fun i => match i with
    | 0 => some obj0C2
    | _ + 1 => none

/-- The missing-object scenario: stride 1000, window `[100, 2000)`,
object 0 valid with events at 100 and 250, object 1 absent. -/
def stC2 : ScanState :=
  scan_events dec0 JournalFilter.init backC2 1000 100 2000 JournalScanner.initState

/-- Object 0 of the bad-trailing-length scenario: a frame at offset 500
with leading length 50 but trailing length 51. -/
def obj0C3 : List Nat :=
  List.replicate 500 0 ++ [50, 0, 0, 0] ++ List.replicate 50 0 ++ [51, 0, 0, 0] ++
    List.replicate 442 0

/-- Object 1 of the bad-trailing-length scenario: one well-formed frame
filling `[1000, 2000)` (length 992). -/
def obj1C3 : List Nat := [224, 3, 0, 0] ++ List.replicate 992 7 ++ [224, 3, 0, 0]

/-- Backend for the bad-trailing-length scenario. -/
def backC3 : Nat → Option (List Nat) :=
  fun i => if i = 0 then some obj0C3 else if i = 1 then some obj1C3 else none

/-- The bad-trailing-length scenario: stride 1000, window
`[500, 2000)`. -/
def stC3 : ScanState :=
  scan_events dec0 JournalFilter.init backC3 1000 500 2000 JournalScanner.initState

/-- A decoder that reads the payload's first byte as an inode marker:
byte 7 stands for inode `0x1000abc = 16779964`. -/
def decIno : List Nat → Option LogEvent :=
  fun p =>
    match p with
    | [] => none
    | b :: _ => some ⟨1, some ⟨[if b == 7 then 16779964 else b], [], [], [], 0⟩⟩

/-- Object 0 of the filter scenario: three contiguous frames at offsets
0, 100 and 200 (length 92 each) whose payloads mark inodes
`0x1000abc`, 2 and 3. -/
def obj0C5 : List Nat :=
  [92, 0, 0, 0] ++ (7 :: List.replicate 91 0) ++ [92, 0, 0, 0] ++
    [92, 0, 0, 0] ++ (2 :: List.replicate 91 0) ++ [92, 0, 0, 0] ++
    [92, 0, 0, 0] ++ (3 :: List.replicate 91 0) ++ [92, 0, 0, 0]

/-- Backend for the filter scenario. -/
def backC5 : Nat → Option (List Nat) :=
  fun i => if i = 0 then some obj0C5 else none

/-- The filter `inode=0x1000abc`. -/
def fltC5 : JournalFilter := { JournalFilter.init with inode := 16779964 }

/-- The filter scenario: stride 1000, window `[0, 300)`, three decoded
events of which exactly one carries the filtered inode. -/
def stC5 : ScanState :=
  scan_events decIno fltC5 backC5 1000 0 300 JournalScanner.initState

/-- A one-event scan under the unconstrained default filter: every
decoded event is retained, so `events_valid` and the key set of
`events` coincide. -/
def stC5cx : ScanState :=
  scan_events dec0 JournalFilter.init backC2 1000 100 250 JournalScanner.initState

/-- A full backend for the determinism claim: good header (trimmed 100,
write 2000, stride 1000) over `backC2`. -/
def bkC7 : Backend := { hdr := .good ⟨100, 100, 2000, 1000⟩, objs := backC2 }

/-- The same backend with the object map written differently. -/
def bkC7b : Backend := { hdr := .good ⟨100, 100, 2000, 1000⟩, objs := backC2b }

/-! ### Helper lemmas -/

theorem inSpans_nil (x : Nat) : ¬ inSpans [] x := by simp [inSpans]

theorem inSpans_append (l : List (Nat × Nat)) (r : Nat × Nat) (x : Nat) :
    inSpans (l ++ [r]) x ↔ inSpans l x ∨ (r.1 ≤ x ∧ x < r.2) := by
  constructor
  · rintro ⟨s, hs, h⟩
    rcases List.mem_append.mp hs with h1 | h1
    · exact Or.inl ⟨s, h1, h⟩
    · simp at h1; subst h1; exact Or.inr h
  · rintro (⟨s, hs, h⟩ | h)
    · exact ⟨s, List.mem_append_left _ hs, h⟩
    · exact ⟨r, List.mem_append_right _ (by simp), h⟩

theorem pairwise_snoc {α : Type} {R : α → α → Prop} {l : List α} {a : α}
    (h : List.Pairwise R l) (h2 : ∀ b ∈ l, R b a) : List.Pairwise R (l ++ [a]) := by
  rw [List.pairwise_append]
  exact ⟨h, List.pairwise_singleton _ _, fun b hb c hc => by simp at hc; subst hc; exact h2 b hb⟩

theorem lt_next_boundary (pos S : Nat) (hS : 0 < S) : pos < (pos / S + 1) * S := by
  have h1 := Nat.div_add_mod pos S
  have h2 := Nat.mod_lt pos hS
  have h3 : (pos / S + 1) * S = S * (pos / S) + S := by ring
  rw [h3]; omega

theorem base_le_pos (pos S : Nat) : (pos / S) * S ≤ pos := Nat.div_mul_le_self pos S

theorem boundary_mod (o S : Nat) : (o + 1) * S % S = 0 := Nat.mul_mod_left (o + 1) S

theorem div_of_sandwich (S o x : Nat) (h1 : o * S ≤ x) (h2 : x < (o + 1) * S) : x / S = o :=
  Nat.div_eq_of_lt_le h1 h2

theorem mod_zero_base (pos S : Nat) (h : pos % S = 0) : pos / S * S = pos :=
  Nat.div_mul_cancel (Nat.dvd_of_mod_eq_zero h)

theorem scanInv_init (flt : JournalFilter) (S start endO : Nat) :
    ScanInv flt S start endO (min start endO) JournalScanner.initState := by
  constructor <;> simp [JournalScanner.initState, inSpans]
  omega

theorem scanInv_set_objects_valid (flt : JournalFilter) (S start endO m : Nat)
    (st : ScanState) (l : List Nat) (hinv : ScanInv flt S start endO m st) :
    ScanInv flt S start endO m { st with objects_valid := l } :=
  ⟨hinv.cover, hinv.disj, hinv.r_lo, hinv.r_ne, hinv.r_hi, hinv.r_sorted, hinv.f_lo,
   hinv.f_ne, hinv.f_hi, hinv.f_sorted, hinv.ev_frames, hinv.ev_sub, hinv.ev_filtered,
   hinv.missing_mem⟩

theorem scanInv_append_range (flt : JournalFilter) (S start endO pos B' : Nat)
    (st : ScanState) (hend : pos < endO) (hsp : start ≤ pos) (hB : pos < B')
    (hinv : ScanInv flt S start endO (min pos endO) st) :
    ScanInv flt S start endO (min B' endO)
      { st with ranges_invalid := st.ranges_invalid ++ [(pos, min B' endO)] } := by
  have hm : min pos endO = pos := by omega
  rw [hm] at hinv
  have hpm : pos < min B' endO := by omega
  constructor
  case cover =>
    intro x
    constructor
    · rintro ⟨hx1, hx2⟩
      by_cases hxp : x < pos
      · rcases (hinv.cover x).mp ⟨hx1, hxp⟩ with h | h
        · exact Or.inl ((inSpans_append _ _ _).mpr (Or.inl h))
        · exact Or.inr h
      · exact Or.inl ((inSpans_append _ _ _).mpr (Or.inr ⟨by omega, hx2⟩))
    · rintro (h | h)
      · rcases (inSpans_append _ _ _).mp h with h' | h'
        · have := (hinv.cover x).mpr (Or.inl h'); omega
        · exact ⟨by omega, h'.2⟩
      · have := (hinv.cover x).mpr (Or.inr h); omega
  case disj =>
    rintro x ⟨hr, hf⟩
    rcases (inSpans_append _ _ _).mp hr with h | h
    · exact hinv.disj x ⟨h, hf⟩
    · have := (hinv.cover x).mpr (Or.inr hf); omega
  case r_lo =>
    intro r hr
    rcases List.mem_append.mp hr with h | h
    · exact hinv.r_lo r h
    · simp at h; subst h; exact hsp
  case r_ne =>
    intro r hr
    rcases List.mem_append.mp hr with h | h
    · exact hinv.r_ne r h
    · simp at h; subst h; exact hpm
  case r_hi =>
    intro r hr
    rcases List.mem_append.mp hr with h | h
    · have := hinv.r_hi r h; omega
    · simp at h; subst h; exact le_refl _
  case r_sorted =>
    exact pairwise_snoc hinv.r_sorted (fun b hb => hinv.r_hi b hb)
  case f_lo => exact hinv.f_lo
  case f_ne => exact hinv.f_ne
  case f_hi =>
    intro f hf
    have := hinv.f_hi f hf; omega
  case f_sorted => exact hinv.f_sorted
  case ev_frames => exact hinv.ev_frames
  case ev_sub => exact hinv.ev_sub
  case ev_filtered => exact hinv.ev_filtered
  case missing_mem =>
    intro o ho
    exact List.mem_append_left _ (hinv.missing_mem o ho)

theorem scanInv_gap_step (flt : JournalFilter) (S start endO o pos : Nat)
    (st : ScanState) (hend : pos < endO) (hsp : start ≤ pos) (hB : pos < (o + 1) * S)
    (hmax : max (o * S) start = pos)
    (hinv : ScanInv flt S start endO (min pos endO) st) :
    ScanInv flt S start endO (min ((o + 1) * S) endO)
      { st with
        objects_missing := st.objects_missing ++ [o]
        ranges_invalid := st.ranges_invalid ++ [(pos, min ((o + 1) * S) endO)] } := by
  have base := scanInv_append_range flt S start endO pos ((o + 1) * S) st hend hsp hB hinv
  refine ⟨base.cover, base.disj, base.r_lo, base.r_ne, base.r_hi, base.r_sorted,
    base.f_lo, base.f_ne, base.f_hi, base.f_sorted, base.ev_frames, base.ev_sub,
    base.ev_filtered, ?_⟩
  intro o' ho'
  rcases List.mem_append.mp ho' with h | h
  · exact List.mem_append_left _ (hinv.missing_mem o' h)
  · simp at h; subst h
    rw [hmax]
    exact List.mem_append_right _ (by simp)

theorem scanInv_frame_step (flt : JournalFilter) (S start endO pos sz : Nat)
    (st : ScanState) (newEvents : List (Nat × EventRecord))
    (hend : pos < endO) (hsp : start ≤ pos) (hsz : 0 < sz) (hfit : pos + sz ≤ endO)
    (hsub : ∀ e ∈ newEvents, e.1 = pos)
    (hfil : ∀ e ∈ newEvents, flt.apply e.1 e.2.log_event = true)
    (hinv : ScanInv flt S start endO (min pos endO) st) :
    ScanInv flt S start endO (min (pos + sz) endO)
      { st with
        events_valid := st.events_valid ++ [pos]
        frames := st.frames ++ [(pos, pos + sz)]
        events := st.events ++ newEvents } := by
  have hm : min pos endO = pos := by omega
  rw [hm] at hinv
  have hpm : pos < min (pos + sz) endO := by omega
  have hfm : pos + sz = min (pos + sz) endO := by omega
  constructor
  case cover =>
    intro x
    constructor
    · rintro ⟨hx1, hx2⟩
      by_cases hxp : x < pos
      · rcases (hinv.cover x).mp ⟨hx1, hxp⟩ with h | h
        · exact Or.inl h
        · exact Or.inr ((inSpans_append _ _ _).mpr (Or.inl h))
      · exact Or.inr ((inSpans_append _ _ _).mpr (Or.inr ⟨by omega, by omega⟩))
    · rintro (h | h)
      · have := (hinv.cover x).mpr (Or.inl h); omega
      · rcases (inSpans_append _ _ _).mp h with h' | h'
        · have := (hinv.cover x).mpr (Or.inr h'); omega
        · have h1 := h'.1; have h2 := h'.2; exact ⟨by omega, by omega⟩
  case disj =>
    rintro x ⟨hr, hf⟩
    rcases (inSpans_append _ _ _).mp hf with h | h
    · exact hinv.disj x ⟨hr, h⟩
    · have := (hinv.cover x).mpr (Or.inl hr); omega
  case r_lo => exact hinv.r_lo
  case r_ne => exact hinv.r_ne
  case r_hi =>
    intro r hr
    have := hinv.r_hi r hr; omega
  case r_sorted => exact hinv.r_sorted
  case f_lo =>
    intro f hf
    rcases List.mem_append.mp hf with h | h
    · exact hinv.f_lo f h
    · simp at h; subst h; exact hsp
  case f_ne =>
    intro f hf
    rcases List.mem_append.mp hf with h | h
    · exact hinv.f_ne f h
    · simp at h; subst h; omega
  case f_hi =>
    intro f hf
    rcases List.mem_append.mp hf with h | h
    · have := hinv.f_hi f h; omega
    · simp at h; subst h; omega
  case f_sorted =>
    exact pairwise_snoc hinv.f_sorted (fun b hb => hinv.f_hi b hb)
  case ev_frames =>
    rw [List.map_append, ← hinv.ev_frames]
    rfl
  case ev_sub =>
    intro e he
    rcases List.mem_append.mp he with h | h
    · exact List.mem_append_left _ (hinv.ev_sub e h)
    · rw [hsub e h]
      exact List.mem_append_right _ (by simp)
  case ev_filtered =>
    intro e he
    rcases List.mem_append.mp he with h | h
    · exact hinv.ev_filtered e h
    · exact hfil e h
  case missing_mem => exact hinv.missing_mem
theorem tryDecodeFrame_bounds (dec : List Nat → Option LogEvent) (S endO : Nat)
    (data : List Nat) (obj pos : Nat) (ev : LogEvent) (sz : Nat)
    (h : tryDecodeFrame dec S endO data obj pos = some (ev, sz)) :
    8 ≤ sz ∧ pos + sz ≤ (obj + 1) * S ∧ pos + sz ≤ endO := by
  simp only [tryDecodeFrame] at h
  split at h
  · exact absurd h (by simp)
  next L hL =>
    split at h
    next hfit =>
      split at h
      · exact absurd h (by simp)
      next T hT =>
        split at h
        next hTL =>
          split at h
          · exact absurd h (by simp)
          next ev' hdec =>
            simp only [Option.some.injEq, Prod.mk.injEq] at h
            obtain ⟨-, hsz⟩ := h
            omega
        · exact absurd h (by simp)
    · exact absurd h (by simp)

theorem scanLoop_inv (dec : List Nat → Option LogEvent) (flt : JournalFilter)
    (backend : Nat → Option (List Nat)) (S start endO : Nat) (hS : 0 < S) :
    ∀ fuel pos st, endO < fuel + pos → start ≤ pos →
      PosAlign backend S start pos →
      ScanInv flt S start endO (min pos endO) st →
      ScanInv flt S start endO endO (scanLoop dec flt backend S endO fuel pos st) := by
  intro fuel
  induction fuel with
  | zero =>
    intro pos st hfuel hsp _ hinv
    have hm : min pos endO = endO := by omega
    rw [hm] at hinv
    simpa [scanLoop] using hinv
  | succ n ih =>
    intro pos st hfuel hsp halign hinv
    by_cases hend : endO ≤ pos
    · have hm : min pos endO = endO := by omega
      rw [hm] at hinv
      simpa [scanLoop, hend] using hinv
    · have hlt : pos < endO := Nat.lt_of_not_le hend
      simp only [scanLoop]
      rw [if_neg hend]
      split
      next hB =>
        have hBlt : pos < (pos / S + 1) * S := lt_next_boundary pos S hS
        apply ih
        · omega
        · omega
        · exact Or.inr (Or.inl (boundary_mod _ _))
        · have hmax : max ((pos / S) * S) start = pos := by
            rcases halign with h | h | h
            · have := base_le_pos pos S; omega
            · have := mod_zero_base pos S h; omega
            · rw [hB] at h; simp at h
          exact scanInv_gap_step flt S start endO (pos / S) pos st hlt hsp hBlt hmax hinv
      next data hB =>
        split
        next ev sz hD =>
          obtain ⟨hsz8, hfitB, hfitE⟩ := tryDecodeFrame_bounds dec S endO data (pos / S) pos ev sz hD
          apply ih
          · omega
          · omega
          · by_cases hq : pos + sz = (pos / S + 1) * S
            · exact Or.inr (Or.inl (by rw [hq]; exact boundary_mod _ _))
            · refine Or.inr (Or.inr ?_)
              have hlo : (pos / S) * S ≤ pos + sz := le_trans (base_le_pos pos S) (by omega)
              have hdiv : (pos + sz) / S = pos / S :=
                div_of_sandwich S (pos / S) (pos + sz) hlo (by omega)
              rw [hdiv, hB]
              rfl
          · apply scanInv_frame_step flt S start endO pos sz
              { st with objects_valid := pushUnique st.objects_valid (pos / S) }
              (if flt.apply pos ev = true then [(pos, ⟨ev, sz⟩)] else [])
              hlt hsp (by omega) hfitE ?_ ?_
              (scanInv_set_objects_valid flt S start endO _ st _ hinv)
            · intro e he
              revert he
              split
              · intro he; simp at he; subst he; rfl
              · intro he; simp at he
            · intro e he
              revert he
              split
              next happ => intro he; simp at he; subst he; exact happ
              · intro he; simp at he
        next hD =>
          have hBlt : pos < (pos / S + 1) * S := lt_next_boundary pos S hS
          apply ih
          · omega
          · omega
          · exact Or.inr (Or.inl (boundary_mod _ _))
          · exact scanInv_append_range flt S start endO pos ((pos / S + 1) * S)
              { st with objects_valid := pushUnique st.objects_valid (pos / S) }
              hlt hsp hBlt
              (scanInv_set_objects_valid flt S start endO _ st _ hinv)

/-- The scan invariant holds of every completed `scan_events` run
started from the fresh constructor state. -/
theorem scan_events_inv (dec : List Nat → Option LogEvent) (flt : JournalFilter)
    (backend : Nat → Option (List Nat)) (S start endO : Nat) (hS : 0 < S) :
    ScanInv flt S start endO endO
      (scan_events dec flt backend S start endO JournalScanner.initState) := by
  apply scanLoop_inv dec flt backend S start endO hS (endO + 1) start JournalScanner.initState
  · omega
  · exact le_refl start
  · exact Or.inl rfl
  · exact scanInv_init flt S start endO

/-! ### Claim theorems -/

/-- The C++ initializer `range_end(-1)` stores the largest `uint64_t`
value. -/
theorem u64_neg_one : u64ofInt (-1) = U64MAX := by decide

/-- Claim C9: a freshly constructed `JournalScanner` (before any scan)
has `header_present = false`, `header_valid = false`, a null header
pointer and empty result containers, so `is_readable` and `is_healthy`
are both false on the unscanned report. -/
theorem C9_fresh_scanner :
    JournalScanner.initState.header_present = false ∧
    JournalScanner.initState.header_valid = false ∧
    JournalScanner.initState.header = none ∧
    JournalScanner.initState.objects_valid = [] ∧
    JournalScanner.initState.objects_missing = [] ∧
    JournalScanner.initState.ranges_invalid = [] ∧
    JournalScanner.initState.events_valid = [] ∧
    JournalScanner.initState.events = [] ∧
    JournalScanner.is_readable JournalScanner.initState = false ∧
    JournalScanner.is_healthy JournalScanner.initState = false := by
  decide

/-- Claim C10: the default-constructed `JournalFilter` stores
`range_start = 0` and `range_end = (-1)` converted to unsigned 64-bit,
i.e. `2^64 - 1`; inode and event-type wildcards are the value 0; and
the stored window, read as a half-open interval, is `[0, 2^64 - 1)`. -/
theorem C10_default_window :
    JournalFilter.init.range_start = 0 ∧
    JournalFilter.init.range_end = u64ofInt (-1) ∧
    u64ofInt (-1) = 2 ^ 64 - 1 ∧
    JournalFilter.init.inode = 0 ∧
    JournalFilter.init.event_type = 0 ∧
    (∀ pos : Nat,
      (JournalFilter.init.range_start ≤ pos ∧ pos < JournalFilter.init.range_end) ↔
        pos < 2 ^ 64 - 1) := by
  refine ⟨rfl, rfl, by decide, rfl, rfl, ?_⟩
  intro pos
  have h : JournalFilter.init.range_end = 2 ^ 64 - 1 := by decide
  rw [h]
  simp [JournalFilter.init]

/-- Claim C4: for every report, `is_readable` holds iff `header_valid`
holds and `ranges_invalid` is empty, and `is_healthy` holds iff
`is_readable` holds and `objects_missing` is empty; both are pure
functions of the report. -/
theorem C4_readable_healthy :
    ∀ st : ScanState,
      (JournalScanner.is_readable st = true ↔ st.header_valid = true ∧ st.ranges_invalid = []) ∧
      (JournalScanner.is_healthy st = true ↔
        JournalScanner.is_readable st = true ∧ st.objects_missing = []) := by
  intro st
  constructor
  · simp [JournalScanner.is_readable, List.isEmpty_iff]
  · simp [JournalScanner.is_healthy, JournalScanner.is_readable, List.isEmpty_iff, and_assoc]

/-- Claim C6: the default (unconstrained) filter matches every
(offset, event) pair; matching is the conjunction of the six
constraint checks; and any payload-inspecting constraint (path, inode,
frag, client) makes the filter reject an event that carries no
metadata blob. -/
theorem C6_filter_semantics :
    (∀ (pos : Nat) (le : LogEvent), JournalFilter.init.apply pos le = true) ∧
    (∀ (f : JournalFilter) (pos : Nat) (le : LogEvent),
      f.apply pos le = true ↔
        (f.rangeCheck pos = true ∧ f.typeCheck le = true ∧ f.pathCheck le = true ∧
         f.inodeCheck le = true ∧ f.fragCheck le = true ∧ f.clientCheck le = true)) ∧
    (∀ (f : JournalFilter) (pos : Nat) (le : LogEvent),
      (f.path_expr ≠ [] ∨ f.inode ≠ 0 ∨ f.frag ≠ 0 ∨ f.client_name ≠ 0) →
      le.metablob = none → f.apply pos le = false) := by
  refine ⟨?_, ?_, ?_⟩
  · intro pos le
    simp [JournalFilter.apply, JournalFilter.rangeCheck, JournalFilter.typeCheck,
      JournalFilter.pathCheck, JournalFilter.inodeCheck, JournalFilter.fragCheck,
      JournalFilter.clientCheck, JournalFilter.init, JournalFilter.range_set, u64_neg_one]
  · intro f pos le
    simp [JournalFilter.apply, Bool.and_eq_true, and_assoc]
  · intro f pos le h hmb
    rcases h with h | h | h | h
    · simp [JournalFilter.apply, JournalFilter.pathCheck, hmb, h]
    · simp [JournalFilter.apply, JournalFilter.inodeCheck, hmb, h]
    · simp [JournalFilter.apply, JournalFilter.fragCheck, hmb, h]
    · simp [JournalFilter.apply, JournalFilter.clientCheck, hmb, h]

/-- Witness for claim C6: the default filter matches a concrete event,
and a filter with `inode = 5` rejects a concrete event without a
metadata blob. -/
theorem C6_filter_semantics_witness :
    JournalFilter.init.apply 0 ⟨1, none⟩ = true ∧
    JournalFilter.apply { JournalFilter.init with inode := 5 } 0 ⟨1, none⟩ = false :=
  ⟨C6_filter_semantics.1 0 ⟨1, none⟩,
   C6_filter_semantics.2.2 { JournalFilter.init with inode := 5 } 0 ⟨1, none⟩
     (Or.inr (Or.inl (by decide))) rfl⟩

/-- The scan loop reads the backend only by applying it: pointwise
equal backends drive identical scans. -/
theorem scanLoop_congr (dec : List Nat → Option LogEvent) (flt : JournalFilter)
    (f1 f2 : Nat → Option (List Nat)) (S endO : Nat) (h : ∀ i, f1 i = f2 i) :
    ∀ fuel pos st,
      scanLoop dec flt f1 S endO fuel pos st = scanLoop dec flt f2 S endO fuel pos st := by
  intro fuel
  induction fuel with
  | zero => intro pos st; rfl
  | succ n ih =>
    intro pos st
    simp only [scanLoop]
    by_cases hend : endO ≤ pos
    · simp [hend]
    · rw [if_neg hend, if_neg hend, h (pos / S)]
      split
      · exact ih _ _
      · split
        · exact ih _ _
        · exact ih _ _

/-- Claim C7: scanning is deterministic and retains no state: two
`scan` invocations against backends that answer identically (in
particular, the same unchanged backend twice) produce reports equal in
every field; each invocation starts from the fresh constructor
state. -/
theorem C7_scan_deterministic :
    ∀ (dec : List Nat → Option LogEvent) (flt : JournalFilter) (full : Bool) (b1 b2 : Backend),
      b1.hdr = b2.hdr → (∀ i, b1.objs i = b2.objs i) →
      JournalScanner.scan dec flt b1 full = JournalScanner.scan dec flt b2 full := by
  intro dec flt full b1 b2 hh ho
  unfold JournalScanner.scan scan_header
  rw [hh]
  cases b2.hdr with
  | absent => rfl
  | corrupt => rfl
  | good hd =>
    cases full with
    | false => rfl
    | true =>
      simp only [scan_events]
      exact scanLoop_congr dec flt b1.objs b2.objs hd.object_size _ ho _ _ _

/-- Witness for claim C7: two scans over the same journal contents
(backends written differently but answering identically) give the same
report. -/
theorem C7_scan_deterministic_witness :
    JournalScanner.scan dec0 JournalFilter.init bkC7 true =
      JournalScanner.scan dec0 JournalFilter.init bkC7b true :=
  C7_scan_deterministic dec0 JournalFilter.init true bkC7 bkC7b rfl
    (fun i => by cases i <;> rfl)

/-- Unfolding of `replay_offline` without `dry_run`: each retained
event yields its own outcome from the apply capability, and every
event's offset is invoked. -/
theorem replay_false_eq (cap : Nat → LogEvent → Bool) (evs : List (Nat × EventRecord)) :
    replay_offline cap false evs =
      (evs.map (fun e => (e.1, cap e.1 e.2.log_event)), evs.map Prod.fst) := by
  induction evs with
  | nil => rfl
  | cons e rest ih => simp [replay_offline, ih]

/-- Unfolding of `replay_offline` with `dry_run`: every event is
reported and the apply capability is never invoked. -/
theorem replay_true_eq (cap : Nat → LogEvent → Bool) (evs : List (Nat × EventRecord)) :
    replay_offline cap true evs = (evs.map (fun e => (e.1, true)), []) := by
  induction evs with
  | nil => rfl
  | cons e rest ih => simp [replay_offline, ih]

/-- Claim C8: `replay_offline` processes the retained events in their
given (ascending) order, invokes the apply capability for every event
unless `dry_run` is set (in which case it invokes none), records a
per-event outcome that depends only on that event, and a failure never
aborts the remaining replay (`replay` distributes over list append). -/
theorem C8_replay_offline :
    (∀ (cap : Nat → LogEvent → Bool) (dry : Bool) (evs : List (Nat × EventRecord)),
      (replay_offline cap dry evs).1.map Prod.fst = evs.map Prod.fst) ∧
    (∀ (cap : Nat → LogEvent → Bool) (dry : Bool) (evs : List (Nat × EventRecord)),
      List.Pairwise (· < ·) (evs.map Prod.fst) →
      List.Pairwise (· < ·) ((replay_offline cap dry evs).1.map Prod.fst)) ∧
    (∀ (cap : Nat → LogEvent → Bool) (evs : List (Nat × EventRecord)),
      replay_offline cap true evs = (evs.map (fun e => (e.1, true)), [])) ∧
    (∀ (cap : Nat → LogEvent → Bool) (evs : List (Nat × EventRecord)),
      replay_offline cap false evs =
        (evs.map (fun e => (e.1, cap e.1 e.2.log_event)), evs.map Prod.fst)) ∧
    (∀ (cap : Nat → LogEvent → Bool) (dry : Bool) (l1 l2 : List (Nat × EventRecord)),
      (replay_offline cap dry (l1 ++ l2)).1 =
        (replay_offline cap dry l1).1 ++ (replay_offline cap dry l2).1) := by
  have hfst : ∀ (cap : Nat → LogEvent → Bool) (dry : Bool) (evs : List (Nat × EventRecord)),
      (replay_offline cap dry evs).1.map Prod.fst = evs.map Prod.fst := by
    intro cap dry evs
    cases dry
    · rw [replay_false_eq]
      simp [List.map_map]
    · rw [replay_true_eq]
      simp [List.map_map]
  refine ⟨hfst, ?_, replay_true_eq, replay_false_eq, ?_⟩
  · intro cap dry evs h
    rw [hfst]
    exact h
  · intro cap dry l1 l2
    cases dry
    · rw [replay_false_eq, replay_false_eq, replay_false_eq]
      simp
    · rw [replay_true_eq, replay_true_eq, replay_true_eq]
      simp

/-- Witness for claim C8: a replay of two events where the apply
capability fails on the second still yields per-event outcomes in
ascending order. -/
theorem C8_replay_offline_witness :
    List.Pairwise (· < ·)
      ((replay_offline (fun n _ => n == 1) false
          [(1, ⟨⟨1, none⟩, 8⟩), (2, ⟨⟨2, none⟩, 8⟩)]).1.map Prod.fst) :=
  C8_replay_offline.2.1 (fun n _ => n == 1) false
    [(1, ⟨⟨1, none⟩, 8⟩), (2, ⟨⟨2, none⟩, 8⟩)] (by decide)

/-- Claim C1 (amended): for every completed scan, the `ranges_invalid`
entries are sorted ascending and pairwise non-overlapping; the invalid
ranges together with the successfully decoded frame spans exactly tile
the scanned window `[start, endO)` with no gaps and no overlaps;
`events_valid` lists exactly the frame starts; and every missing
object's byte span, clipped to the window, appears as a
`ranges_invalid` entry (so the missing-object spans add nothing new to
the tiling — they coincide with invalid tiles rather than forming
disjoint extra tiles, which is what the original claim's
no-overlap reading would require). -/
theorem C1_tiling :
    ∀ (dec : List Nat → Option LogEvent) (flt : JournalFilter)
      (backend : Nat → Option (List Nat)) (S start endO : Nat), 0 < S →
      (let st := scan_events dec flt backend S start endO JournalScanner.initState
       List.Pairwise (fun a b : Nat × Nat => a.2 ≤ b.1) st.ranges_invalid ∧
       (∀ r ∈ st.ranges_invalid, r.1 < r.2) ∧
       List.Pairwise (fun a b : Nat × Nat => a.2 ≤ b.1) st.frames ∧
       (∀ f ∈ st.frames, f.1 < f.2) ∧
       (∀ x, (start ≤ x ∧ x < endO) ↔ (inSpans st.ranges_invalid x ∨ inSpans st.frames x)) ∧
       (∀ x, ¬ (inSpans st.ranges_invalid x ∧ inSpans st.frames x)) ∧
       st.events_valid = st.frames.map Prod.fst ∧
       (∀ o ∈ st.objects_missing,
         (max (o * S) start, min ((o + 1) * S) endO) ∈ st.ranges_invalid)) := by
  intro dec flt backend S start endO hS
  have hinv := scan_events_inv dec flt backend S start endO hS
  exact ⟨hinv.r_sorted, hinv.r_ne, hinv.f_sorted, hinv.f_ne, hinv.cover, hinv.disj,
    hinv.ev_frames, hinv.missing_mem⟩

/-- Witness for claim C1: the tiling properties instantiated on the
concrete bad-trailing-length journal. -/
theorem C1_tiling_witness :
    (0 : Nat) < 1000 ∧
    (List.Pairwise (fun a b : Nat × Nat => a.2 ≤ b.1) stC3.ranges_invalid ∧
     (∀ r ∈ stC3.ranges_invalid, r.1 < r.2) ∧
     List.Pairwise (fun a b : Nat × Nat => a.2 ≤ b.1) stC3.frames ∧
     (∀ f ∈ stC3.frames, f.1 < f.2) ∧
     (∀ x, (500 ≤ x ∧ x < 2000) ↔ (inSpans stC3.ranges_invalid x ∨ inSpans stC3.frames x)) ∧
     (∀ x, ¬ (inSpans stC3.ranges_invalid x ∧ inSpans stC3.frames x)) ∧
     stC3.events_valid = stC3.frames.map Prod.fst ∧
     (∀ o ∈ stC3.objects_missing,
       (max (o * 1000) 500, min ((o + 1) * 1000) 2000) ∈ stC3.ranges_invalid)) :=
  ⟨by decide, C1_tiling dec0 JournalFilter.init backC3 1000 500 2000 (by decide)⟩

/-- Counterexample for claim C1 as stated: in the missing-object
scenario the span of missing object 1 and the `ranges_invalid` entry
`(1000, 2000)` are the same bytes, so the combined family of
missing-object spans, invalid ranges and frame spans is not pairwise
non-overlapping — it cannot be a tiling "with no overlaps". -/
theorem C1_overlap_counterexample :
    (1 : Nat) ∈ stC2.objects_missing ∧
    ((1 * 1000 : Nat), (1 + 1) * 1000) ∈ familySpans 1000 stC2 ∧
    ((1000 : Nat), (2000 : Nat)) ∈ stC2.ranges_invalid ∧
    ¬ spansDisjoint (1 * 1000, (1 + 1) * 1000) ((1000 : Nat), 2000) ∧
    ¬ List.Pairwise spansDisjoint (familySpans 1000 stC2) := by
  decide

/-- Claim C2: whenever a scan records a missing object, the entire byte
span that object would have covered, clipped to the scan window, is
recorded as a `ranges_invalid` entry; in the concrete scenario
(object 0 valid with events at 100 and 250, object 1 missing, stride
1000, window `[100, 2000)`) the report is `objects_missing = [1]`,
`ranges_invalid = [(1000, 2000)]`, `events_valid = [100, 250]`. -/
theorem C2_missing_object :
    (∀ (dec : List Nat → Option LogEvent) (flt : JournalFilter)
       (backend : Nat → Option (List Nat)) (S start endO : Nat), 0 < S →
       ∀ o ∈ (scan_events dec flt backend S start endO JournalScanner.initState).objects_missing,
         (max (o * S) start, min ((o + 1) * S) endO) ∈
           (scan_events dec flt backend S start endO JournalScanner.initState).ranges_invalid) ∧
    stC2.objects_missing = [1] ∧
    stC2.ranges_invalid = [(1000, 2000)] ∧
    stC2.events_valid = [100, 250] := by
  refine ⟨?_, by decide, by decide, by decide⟩
  intro dec flt backend S start endO hS o ho
  exact (scan_events_inv dec flt backend S start endO hS).missing_mem o ho

/-- Witness for claim C2: the missing object of the concrete scenario
contributed its clipped span as an invalid range. -/
theorem C2_missing_object_witness :
    (0 : Nat) < 1000 ∧
    (max (1 * 1000) 100, min ((1 + 1) * 1000) 2000) ∈ stC2.ranges_invalid :=
  ⟨by decide,
   C2_missing_object.1 dec0 JournalFilter.init backC2 1000 100 2000 (by decide) 1 (by decide)⟩

/-- Claim C3: a frame whose trailing length differs from its leading
length never decodes; in the concrete scenario (bad frame at 500 with
leading 50 / trailing 51, next object holding a good frame at 1000)
the scan records the invalid range `[500, 1000)` — covering at least
`[500, next_object_boundary)` — puts nothing at 500 in `events_valid`,
and continues scanning (the event at 1000 is found). -/
theorem C3_trailing_mismatch :
    (∀ (dec : List Nat → Option LogEvent) (S endO : Nat) (data : List Nat)
       (obj pos L T : Nat),
       readU32LE data (pos - obj * S) = some L →
       readU32LE data (pos - obj * S + 4 + L) = some T →
       T ≠ L →
       tryDecodeFrame dec S endO data obj pos = none) ∧
    stC3.ranges_invalid = [(500, 1000)] ∧
    (∀ x, 500 ≤ x → x < 1000 → inSpans stC3.ranges_invalid x) ∧
    ¬ (500 ∈ stC3.events_valid) ∧
    stC3.events_valid = [1000] := by
  refine ⟨?_, by decide, ?_, by decide, by decide⟩
  · intro dec S endO data obj pos L T hL hT hne
    simp only [tryDecodeFrame, hL]
    split
    · rw [hT]
      simp [hne]
    · rfl
  · intro x h1 h2
    have h : stC3.ranges_invalid = [(500, 1000)] := by decide
    rw [h]
    exact ⟨(500, 1000), by simp, by omega⟩

/-- Witness for claim C3: the concrete mismatched frame at offset 500
fails to decode, and byte 700 of the resulting gap is recorded
invalid. -/
theorem C3_trailing_mismatch_witness :
    tryDecodeFrame dec0 1000 2000 obj0C3 0 500 = none ∧ inSpans stC3.ranges_invalid 700 :=
  ⟨C3_trailing_mismatch.1 dec0 1000 2000 obj0C3 0 500 50 51 (by decide) (by decide) (by decide),
   C3_trailing_mismatch.2.2.1 700 (by decide) (by decide)⟩

/-- Claim C5 (amended): for every completed scan, every key of the
`events` map appears in `events_valid` and every retained entry passes
the active filter (so the key set is a — not necessarily strict —
subset of `events_valid`); in the concrete scenario, the filter
`inode = 0x1000abc` over three decoded events of which one carries
that inode leaves an `events` map of size 1 while `events_valid` lists
all three offsets. -/
theorem C5_superset_filtered :
    (∀ (dec : List Nat → Option LogEvent) (flt : JournalFilter)
       (backend : Nat → Option (List Nat)) (S start endO : Nat), 0 < S →
       ∀ e ∈ (scan_events dec flt backend S start endO JournalScanner.initState).events,
         e.1 ∈ (scan_events dec flt backend S start endO JournalScanner.initState).events_valid ∧
         flt.apply e.1 e.2.log_event = true) ∧
    stC5.events_valid = [0, 100, 200] ∧
    stC5.events.map Prod.fst = [0] ∧
    stC5.events.length = 1 := by
  refine ⟨?_, by decide, by decide, by decide⟩
  intro dec flt backend S start endO hS e he
  have hinv := scan_events_inv dec flt backend S start endO hS
  exact ⟨hinv.ev_sub e he, hinv.ev_filtered e he⟩

/-- Witness for claim C5: the retained event of the filter scenario is
listed in `events_valid` and matches the filter. -/
theorem C5_superset_filtered_witness :
    (0 : Nat) < 1000 ∧
    ((0 : Nat) ∈ stC5.events_valid ∧
      fltC5.apply 0 ⟨1, some ⟨[16779964], [], [], [], 0⟩⟩ = true) :=
  ⟨by decide,
   C5_superset_filtered.1 decIno fltC5 backC5 1000 0 300 (by decide)
     (0, ⟨⟨1, some ⟨[16779964], [], [], [], 0⟩⟩, 100⟩) (by decide)⟩

/-- Counterexample for claim C5 as stated: under the unconstrained
default filter a completed scan retains every decoded event, so the
offsets of `events_valid` and the keys of `events` are the same set —
the superset is not strict. -/
theorem C5_strictness_counterexample :
    stC5cx.events_valid = [100] ∧
    stC5cx.events.map Prod.fst = [100] ∧
    stC5cx.events_valid.all (fun v => (stC5cx.events.map Prod.fst).contains v) = true := by
  decide
